import Mathlib

/-!
Shallow embedding of the CQL value decoder of `src/ccassandra/cql_types.cpp`
(the `pyccassandra` C++ extension of the python-driver), together with proofs
of the claims made by the specification about it.

Python objects are modelled as follows: a `PyObject*` produced by a
`Deserialize` call is a `Value`; `NULL` returns with a Python exception set are
`Except.error` carrying the exception kind and message; slots of a
`PyTupleObject`/`PyListObject` are `Option Value`, where `none` is a C-level
`NULL` slot (never populated) and `some Value.null` is a populated `Py_None`.
-/

namespace Pyccassandra

/-- Failure result of a decode: the Python exception class and message that the
C++ code sets before returning `NULL`. -/
inductive Failure
  | eofError (msg : String)
  | valueError (msg : String)
  | typeError (msg : String)
  | osError (msg : String)
deriving DecidableEq, Repr

/-- Decoded value model. `tuple` and `list` hold `Option Value` slots so that an
unpopulated C-level `NULL` slot (`none`) is distinguished from a populated
`Py_None` (`some .null`). Only the variants the claims exercise are included. -/
inductive Value
  | null
  | int32 (n : Int)
  | bytes (bs : List Nat)
  | inetText (s : String)
  | decimal (text : String)
  | tuple (items : List (Option Value))
  | list (items : List (Option Value))
deriving Repr

/-- Modelled from the spec (§4.1): `Buffer` (its header is not under `src/`) is
a bounded byte cursor over a fixed window; bytes are modelled as `Nat`s taken
mod 256. -/
structure Buffer where
  data : List Nat
  pos : Nat
deriving DecidableEq, Repr

/-- Modelled from the spec (§4.1): remaining byte count without consuming. -/
def Buffer.Residual (b : Buffer) : Nat := b.data.length - b.pos

/-- Modelled from the spec (§4.1): `Consume(n)` returns the next `n` bytes and
the advanced cursor, or fails (`none`, the EOF condition) if fewer than `n`
bytes remain. -/
def Buffer.Consume (b : Buffer) (n : Nat) : Option (List Nat × Buffer) :=
  if n ≤ b.Residual then some ((b.data.drop b.pos).take n, ⟨b.data, b.pos + n⟩)
  else none

/-- The bytes from the cursor to the end of the window. -/
def Buffer.residualBytes (b : Buffer) : List Nat := b.data.drop b.pos

/-- Big-endian byte assembly; each byte is masked to 8 bits. -/
def beBytes (bs : List Nat) : Nat := bs.foldl (fun a b => a * 256 + b % 256) 0

/-- Modelled from the spec (§2, §4.2): `UnpackInt32` of `marshal.hpp` (not under
`src/`), big-endian signed 32-bit decode. -/
def unpackInt32 (bs : List Nat) : Int :=
  let n := beBytes bs
  if n < 2 ^ 31 then (n : Int) else (n : Int) - 2 ^ 32

/-- Modelled from the spec (§2, §4.2): `UnpackInt16` of `marshal.hpp` (not under
`src/`), big-endian signed 16-bit decode. -/
def unpackInt16 (bs : List Nat) : Int :=
  let n := beBytes bs
  if n < 2 ^ 15 then (n : Int) else (n : Int) - 2 ^ 16

/-- Modelled from the spec (§2, §4.2, glossary): `UnmarshalVarint` of
`marshal.hpp` (not under `src/`), twos-complement big-endian
arbitrary-precision signed integer decode; an empty window decodes to 0. -/
def unmarshalVarint (bs : List Nat) : Int :=
  if bs.isEmpty then 0
  else
    let n := beBytes bs
    if n < 2 ^ (8 * bs.length - 1) then (n : Int) else (n : Int) - 2 ^ (8 * bs.length)

/-- Conversion of a C `int` value to `std::size_t` (LP64: 64-bit unsigned),
i.e. reduction modulo `2 ^ 64`. -/
def toSizeT (i : Int) : Nat := (i % (2 ^ 64 : Int)).toNat

/-- Width of the list element-count prefix and of each list element size field:
`protocolVersion >= 3 ? 4 : 2` (`cql_types.cpp`, line 441). -/
def listSizeSize (pv : Int) : Nat := if 3 ≤ pv then 4 else 2

/-- Version-dependent signed decode of a list count/size field
(`cql_types.cpp`, lines 451–453 and 467–469). -/
def unpackListSize (pv : Int) (bs : List Nat) : Int :=
  if 3 ≤ pv then unpackInt32 bs else unpackInt16 bs

/-- Group 16 octets into 8 big-endian 16-bit words. -/
def toWords : List Nat → List Nat
  | b0 :: b1 :: rest => ((b0 % 256) * 256 + b1 % 256) :: toWords rest
  | _ => []

/-- Keep the better (strictly longer) of two candidate zero runs, preferring
the earlier one on ties. -/
def mergeRun : Option (Nat × Nat) → Option (Nat × Nat) → Option (Nat × Nat)
  | best, none => best
  | none, some c => some c
  | some (b, l), some (b', l') => if l' > l then some (b', l') else some (b, l)

/-- Scan the word list for the first longest run of zero words, tracking the
best run so far and the current run. -/
def scanRuns : List Nat → Nat → Option (Nat × Nat) → Option (Nat × Nat) → Option (Nat × Nat)
  | [], _, best, cur => mergeRun best cur
  | w :: rest, i, best, cur =>
    if w = 0 then
      match cur with
      | none => scanRuns rest (i + 1) best (some (i, 1))
      | some (b, l) => scanRuns rest (i + 1) best (some (b, l + 1))
    else
      scanRuns rest (i + 1) (mergeRun best cur) none

/-- First longest run of zero words, discarded when shorter than 2 words. -/
def bestZeroRun (ws : List Nat) : Option (Nat × Nat) :=
  match scanRuns ws 0 none none with
  | some (b, l) => if l < 2 then none else some (b, l)
  | none => none

/-- Lowercase hexadecimal presentation of a word, no padding. -/
def hexStr (n : Nat) : String := ⟨Nat.toDigits 16 n⟩

/-- Modelled from the spec (§4.2): the dotted-decimal IPv4 presentation
produced by `inet_ntop(AF_INET, ...)` (libc, outside the repository). -/
def inetNtop4 (bs : List Nat) : String :=
  String.intercalate "." (bs.map (fun b => toString (b % 256)))

/-- Modelled from the spec (§4.2): the canonical colon-hex IPv6 presentation
produced by `inet_ntop(AF_INET6, ...)` (libc, outside the repository):
lowercase hex words with the first longest run of at least two zero words
compressed to `::`. -/
def inetNtop6 (bs : List Nat) : String :=
  let ws := toWords bs
  match bestZeroRun ws with
  | none => String.intercalate ":" (ws.map hexStr)
  | some (b, l) =>
    String.intercalate ":" ((ws.take b).map hexStr) ++ "::" ++
      String.intercalate ":" ((ws.drop (b + l)).map hexStr)

/-- Modelled from the spec (§4.2): `inet_ntop` dispatching on the address
family selected by the window size; `none` is a conversion failure. -/
def inetNtop (bs : List Nat) : Option String :=
  if bs.length = 4 then some (inetNtop4 bs)
  else if bs.length = 16 then some (inetNtop6 bs)
  else none

/-- The CQL type hierarchy (`cql_types.cpp`), restricted to the variants the
claims exercise: two scalar representatives plus the variants with their own
cited code (`CqlInt32Type`, `CqlBytesType`, `CqlInetAddressType`,
`CqlDecimalType`, `CqlTupleType`, `CqlListType`). -/
inductive CqlType
  | int32
  | bytes
  | inet
  | decimal
  | tuple (subtypes : List CqlType)
  | list (itemType : CqlType)

/-- The backfill loop of `CqlTupleType::Deserialize` (`cql_types.cpp`, lines
401–403): `while (missing--) PyTuple_SetItem(tuple, missing, Py_None);`, i.e.
positions `missing - 1` down to `0` are set to `Py_None`. -/
def backfillNones : List (Option Value) → Nat → List (Option Value)
  | tup, 0 => tup
  | tup, m + 1 => backfillNones (tup.set m (some Value.null)) m

/-- The element loop of `CqlListType::Deserialize` (`cql_types.cpp`, lines
461–498), with the item deserializer abstracted: iterate while the index is
below the declared count; a failed size-field read breaks out of the loop
(slots keep their current contents); a negative size or a truncated item body
or a failed item decode aborts the whole call. -/
def listLoopF (desItem : Buffer → Except Failure Value) (ss : Nat)
    (unpack : List Nat → Int) :
    Nat → Nat → Buffer → List (Option Value) → Except Failure (List (Option Value))
  | 0, _, _, acc => .ok acc
  | r + 1, idx, buf, acc =>
    match buf.Consume ss with
    | none => .ok acc
    | some (sizeData, buf1) =>
      let size := unpack sizeData
      if size < 0 then .error (.valueError "negative item size in list")
      else
        match buf1.Consume size.toNat with
        | none => .error (.eofError "unexpected end of buffer while reading list")
        | some (itemData, buf2) =>
          match desItem (Buffer.mk itemData 0) with
          | .error e => .error e
          | .ok des => listLoopF desItem ss unpack r (idx + 1) buf2 (acc.set idx (some des))

mutual

/-- The `Deserialize(Buffer&, int)` implementations of `cql_types.cpp`:
`CqlInt32Type` (macro-generated, lines 104–123), `CqlBytesType` (145–153),
`CqlInetAddressType` (200–225), `CqlDecimalType` (265–322), `CqlTupleType`
(348–406) and `CqlListType` (437–501). -/
def deserialize : CqlType → Buffer → Int → Except Failure Value
  | .int32, buf, _ =>
    match buf.Consume 4 with
    | none => .error (.eofError "unexpected end of buffer deserializing signed 32-bit integer")
    | some (d, _) => .ok (.int32 (unpackInt32 d))
  | .bytes, buf, _ => .ok (.bytes buf.residualBytes)
  | .inet, buf, _ =>
    let size := buf.Residual
    if size ≠ 4 ∧ size ≠ 16 then
      .error (.valueError "expected buffer to either represent a 4 or 16 octet network address")
    else
      match inetNtop buf.residualBytes with
      | none => .error (.osError "error converting Internet address")
      | some s => .ok (.inetText s)
  | .decimal, buf, _ =>
    match buf.Consume 4 with
    | none => .error (.eofError "unexpected end of buffer deserializing decimal number")
    | some (scaleData, buf1) =>
      let negativeScale := unpackInt32 scaleData
      let unscaled := unmarshalVarint buf1.residualBytes
      .ok (.decimal (toString unscaled ++ "e" ++ toString (-negativeScale)))
  | .tuple ts, buf, pv =>
    let pv' := if pv < 3 then 3 else pv
    match tupleLoop ts pv' 0 (List.replicate ts.length Option.none) ts.length buf with
    | .error e => .error e
    | .ok items => .ok (.tuple items)
  | .list t, buf, pv =>
    let ss := listSizeSize pv
    match buf.Consume ss with
    | none => .error (.eofError "unexpected end of buffer while reading list")
    | some (cntBytes, buf1) =>
      let itemCount := toSizeT (unpackListSize pv cntBytes)
      match listLoopF (fun b => deserialize t b pv) ss (unpackListSize pv) itemCount 0 buf1
          (List.replicate itemCount Option.none) with
      | .error e => .error e
      | .ok items => .ok (.list items)

/-- The subtype loop of `CqlTupleType::Deserialize` (`cql_types.cpp`, lines
360–403) including the final backfill: a failed 4-byte size read breaks to the
backfill; a negative size, a truncated item body or a failed item decode aborts
the whole call. -/
def tupleLoop : List CqlType → Int → Nat → List (Option Value) → Nat → Buffer →
    Except Failure (List (Option Value))
  | [], _, _, tup, missing, _ => .ok (backfillNones tup missing)
  | t :: rest, pv, i, tup, missing, buf =>
    match buf.Consume 4 with
    | none => .ok (backfillNones tup missing)
    | some (sizeData, buf1) =>
      let size := unpackInt32 sizeData
      if size < 0 then .error (.valueError "negative item size in tuple")
      else
        match buf1.Consume size.toNat with
        | none => .error (.eofError "unexpected end of buffer while reading tuple")
        | some (itemData, buf2) =>
          match deserialize t (Buffer.mk itemData 0) pv with
          | .error e => .error e
          | .ok des => tupleLoop rest pv (i + 1) (tup.set i (some des)) (missing - 1) buf2

end

/-- A Python descriptor handed to `CqlTypeFactory::ReferenceFromPython`:
either it resolves (allocating a fresh `CqlTypeReference`) or it fails with
the given error. -/
inductive SubtypeDesc
  | resolvable
  | failing (e : Failure)

/-- Shape of the `subtypes` attribute of a composite type descriptor: a Python
tuple, a Python list, or some other (rejected) shape (`cql_types.cpp`, lines
31–70). -/
inductive SubtypesAttr
  | tupleLike (ds : List SubtypeDesc)
  | listLike (ds : List SubtypeDesc)
  | otherShape

/-- Heap bookkeeping for `CqlTypeReference` allocations: the next fresh id and
the ids of the currently live allocations. -/
structure AllocState where
  nextId : Nat
  live : List Nat
deriving DecidableEq, Repr

/-- Release (`delete`) one reference allocation. -/
def freeRef (st : AllocState) (id : Nat) : AllocState :=
  ⟨st.nextId, st.live.filter (fun x => x ≠ id)⟩

/-- The factory call `factory.ReferenceFromPython(pySubtype)` (`cql_types.cpp`,
line 76), modelled by its observable effect on the descriptor: success
allocates a fresh reference, failure allocates nothing. -/
def referenceFromPython (d : SubtypeDesc) (st : AllocState) :
    Except Failure Nat × AllocState :=
  match d with
  | .resolvable => (.ok st.nextId, ⟨st.nextId + 1, st.nextId :: st.live⟩)
  | .failing e => (.error e, st)

/-- The resolution loop of `ResolveSubtypes` (`cql_types.cpp`, lines 72–90):
resolve each descriptor in order; on the first failure, `delete` every
previously resolved subtype reference, clear the output vector and propagate
the failure. -/
def resolveLoop : List SubtypeDesc → List Nat → AllocState →
    Except Failure (List Nat) × AllocState
  | [], acc, st => (.ok acc, st)
  | d :: rest, acc, st =>
    match referenceFromPython d st with
    | (.error e, st1) => (.error e, acc.foldl freeRef st1)
    | (.ok id, st1) => resolveLoop rest (acc ++ [id]) st1

/-- `ResolveSubtypes` (`cql_types.cpp`, lines 19–95): a non-sequence `subtypes`
attribute is a `TypeError`; otherwise the elements are resolved in order with
cleanup on first failure. -/
def resolveSubtypes (attr : SubtypesAttr) (st : AllocState) :
    Except Failure (List Nat) × AllocState :=
  match attr with
  | .otherShape => (.error (.typeError "invalid subtypes for tuple"), st)
  | .tupleLike ds => resolveLoop ds [] st
  | .listLike ds => resolveLoop ds [] st

/-- `CqlListType::FromPython` (`cql_types.cpp`, lines 414–430): resolve the
subtypes, then require exactly one subtype; on the arity error the resolved
references are not released. -/
def cqlListTypeFromPython (attr : SubtypesAttr) (st : AllocState) :
    Except Failure Nat × AllocState :=
  match resolveSubtypes attr st with
  | (.error e, st1) => (.error e, st1)
  | (.ok subtypes, st1) =>
    match subtypes with
    | [r] => (.ok r, st1)
    | _ => (.error (.typeError "list does not have one subtype"), st1)

/-- The ids handed out by `k` consecutive successful reference allocations
starting from next id `n`. -/
def newIds : Nat → Nat → List Nat
  | _, 0 => []
  | n, k + 1 => n :: newIds (n + 1) k

/-! Helper lemmas. -/

lemma consume_none {b : Buffer} {n : Nat} (h : b.Residual < n) : b.Consume n = none := by
  unfold Buffer.Consume
  rw [if_neg (by omega)]

lemma residualBytes_length (b : Buffer) : b.residualBytes.length = b.Residual := by
  simp [Buffer.residualBytes, Buffer.Residual]

lemma listLoopF_exhausted (des : Buffer → Except Failure Value) (ss : Nat)
    (unpack : List Nat → Int) (r idx : Nat) (buf : Buffer) (acc : List (Option Value))
    (h : buf.Residual < ss) :
    listLoopF des ss unpack r idx buf acc = .ok acc := by
  cases r with
  | zero => rfl
  | succ r =>
    simp only [listLoopF]
    rw [consume_none h]

lemma listLoopF_length (des : Buffer → Except Failure Value) (ss : Nat)
    (unpack : List Nat → Int) :
    ∀ (r idx : Nat) (buf : Buffer) (acc res : List (Option Value)),
      listLoopF des ss unpack r idx buf acc = .ok res → res.length = acc.length := by
  intro r
  induction r with
  | zero =>
    intro idx buf acc res h
    simp only [listLoopF] at h
    cases h
    rfl
  | succ r ih =>
    intro idx buf acc res h
    simp only [listLoopF] at h
    cases hc : buf.Consume ss with
    | none =>
      rw [hc] at h
      cases h
      rfl
    | some p =>
      obtain ⟨sizeData, buf1⟩ := p
      rw [hc] at h
      dsimp only at h
      by_cases hneg : unpack sizeData < 0
      · rw [if_pos hneg] at h
        cases h
      · rw [if_neg hneg] at h
        cases hc2 : buf1.Consume (unpack sizeData).toNat with
        | none =>
          rw [hc2] at h
          cases h
        | some q =>
          obtain ⟨itemData, buf2⟩ := q
          rw [hc2] at h
          dsimp only at h
          cases hd : des (Buffer.mk itemData 0) with
          | error e =>
            rw [hd] at h
            cases h
          | ok des1 =>
            rw [hd] at h
            have := ih (idx + 1) buf2 (acc.set idx (some des1)) res h
            simpa using this

/-! Claim theorems. -/

/-- C1: the spec claims that when the outer buffer is exhausted before all
declared subtypes are decoded, `CqlTupleType::Deserialize` returns a result of
the declared arity whose remaining trailing positions are all `Null`. The code
instead runs `while (missing--) PyTuple_SetItem(tuple, missing, Py_None)`,
which fills the leading positions `missing - 1 .. 0` — overwriting elements
that were already decoded — and leaves the trailing positions as unpopulated
C-level `NULL` slots. At the very input the spec uses (3 declared subtypes, a
window holding exactly 2 complete elements) the decoded first element is
clobbered with `Py_None` and the third slot stays unpopulated (`none`), not
`Null`. -/
theorem tuple_partial_backfill_clobbers_leading :
    deserialize (.tuple [.int32, .int32, .int32])
        ⟨[0, 0, 0, 4, 0, 0, 0, 7, 0, 0, 0, 4, 0, 0, 0, 9], 0⟩ 3
      = .ok (.tuple [some .null, some (.int32 9), none]) := rfl

/-- C2: when `CqlListType::Deserialize` exhausts the outer buffer before all
declared elements are read (the size-field read fails), the loop stops early
and returns the accumulated sequence unchanged, so slots beyond the last
decoded element stay unpopulated (`none`, never backfilled with `Py_None`);
any successful result has exactly the declared length; concretely, a declared
count of 3 with only 2 complete encoded elements yields
`[some 7, some 9, none]`. -/
theorem list_early_stop_leaves_unpopulated :
    (∀ (des : Buffer → Except Failure Value) (ss : Nat) (unpack : List Nat → Int)
        (r idx : Nat) (buf : Buffer) (acc : List (Option Value)),
        buf.Residual < ss →
        listLoopF des ss unpack r idx buf acc = .ok acc)
    ∧ (∀ (t : CqlType) (pv : Int) (buf buf1 : Buffer) (cnt : List Nat) (v : Value),
        buf.Consume (listSizeSize pv) = some (cnt, buf1) →
        deserialize (.list t) buf pv = .ok v →
        ∃ items, v = .list items ∧ items.length = toSizeT (unpackListSize pv cnt))
    ∧ deserialize (.list .int32)
          ⟨[0, 0, 0, 3, 0, 0, 0, 4, 0, 0, 0, 7, 0, 0, 0, 4, 0, 0, 0, 9], 0⟩ 3
        = .ok (.list [some (.int32 7), some (.int32 9), none]) := by
  refine ⟨?_, ?_, rfl⟩
  · intro des ss unpack r idx buf acc h
    exact listLoopF_exhausted des ss unpack r idx buf acc h
  · intro t pv buf buf1 cnt v hc hd
    simp only [deserialize] at hd
    rw [hc] at hd
    dsimp only at hd
    cases hl : listLoopF (fun b => deserialize t b pv) (listSizeSize pv) (unpackListSize pv)
        (toSizeT (unpackListSize pv cnt)) 0 buf1
        (List.replicate (toSizeT (unpackListSize pv cnt)) Option.none) with
    | error e =>
      rw [hl] at hd
      cases hd
    | ok items =>
      rw [hl] at hd
      cases hd
      refine ⟨items, rfl, ?_⟩
      have := listLoopF_length _ _ _ _ _ _ _ _ hl
      simpa using this

/-- C3: in both the tuple and the list element loops, once an element size
field has been read successfully and its signed value is negative, the call
aborts with the hard `ValueError` (Malformed) failure — the negative size is
not treated as a null sentinel and no value is returned — at whatever
(version-dependent) size-field width is in use. -/
theorem negative_item_size_is_malformed :
    (∀ (t : CqlType) (rest : List CqlType) (pv : Int) (i : Nat)
        (tup : List (Option Value)) (missing : Nat) (buf buf1 : Buffer) (sd : List Nat),
        buf.Consume 4 = some (sd, buf1) → unpackInt32 sd < 0 →
        tupleLoop (t :: rest) pv i tup missing buf
          = .error (.valueError "negative item size in tuple"))
    ∧ (∀ (des : Buffer → Except Failure Value) (pv : Int) (r idx : Nat)
        (buf buf1 : Buffer) (sd : List Nat) (acc : List (Option Value)),
        buf.Consume (listSizeSize pv) = some (sd, buf1) → unpackListSize pv sd < 0 →
        listLoopF des (listSizeSize pv) (unpackListSize pv) (r + 1) idx buf acc
          = .error (.valueError "negative item size in list")) := by
  constructor
  · intro t rest pv i tup missing buf buf1 sd hc hneg
    simp only [tupleLoop]
    rw [hc]
    dsimp only
    rw [if_pos hneg]
  · intro des pv r idx buf buf1 sd acc hc hneg
    simp only [listLoopF]
    rw [hc]
    dsimp only
    rw [if_pos hneg]

/-- Witness for C3 at concrete inputs: a tuple size field `ff ff ff ff`
(signed value -1) and, at protocol version 2, a list size field `ff ff`. -/
theorem negative_item_size_is_malformed_witness :
    tupleLoop [.int32] 3 0 [none] 1 ⟨[255, 255, 255, 255], 0⟩
      = .error (.valueError "negative item size in tuple")
    ∧ listLoopF (fun b => deserialize .int32 b 2) (listSizeSize 2) (unpackListSize 2) 1 0
        ⟨[255, 255], 0⟩ [none]
      = .error (.valueError "negative item size in list") :=
  ⟨negative_item_size_is_malformed.1 .int32 [] 3 0 [none] 1 ⟨[255, 255, 255, 255], 0⟩
      ⟨[255, 255, 255, 255], 4⟩ [255, 255, 255, 255] rfl (by decide),
   negative_item_size_is_malformed.2 (fun b => deserialize .int32 b 2) 2 0 0
      ⟨[255, 255], 0⟩ ⟨[255, 255], 2⟩ [255, 255] [none] rfl (by decide)⟩

/-- Witness for C2 at concrete loop inputs. -/
theorem list_early_stop_leaves_unpopulated_witness :
    listLoopF (fun b => deserialize .int32 b 3) 4 unpackInt32 2 1 ⟨[9], 0⟩ [some (.int32 7), none]
      = .ok [some (.int32 7), none] :=
  list_early_stop_leaves_unpopulated.1 (fun b => deserialize .int32 b 3) 4 unpackInt32 2 1
    ⟨[9], 0⟩ [some (.int32 7), none] (by decide)

/-- C4: the list element-count prefix and each element size field share the
version-dependent width — 4 bytes for protocol version at least 3, 2 bytes
below — with the matching signed decode; and each element body is decoded by
the item type at the same, unmodified protocol version (demonstrated by a
nested list decoded with 2-byte framing under version 2); a negative element
size fails Malformed at both widths. -/
theorem list_framing_width_by_version :
    (∀ pv : Int, 3 ≤ pv → listSizeSize pv = 4)
    ∧ (∀ pv : Int, pv < 3 → listSizeSize pv = 2)
    ∧ (∀ (pv : Int) (bs : List Nat), 3 ≤ pv → unpackListSize pv bs = unpackInt32 bs)
    ∧ (∀ (pv : Int) (bs : List Nat), pv < 3 → unpackListSize pv bs = unpackInt16 bs)
    ∧ deserialize (.list .int32) ⟨[0, 1, 0, 4, 0, 0, 0, 7], 0⟩ 2
        = .ok (.list [some (.int32 7)])
    ∧ deserialize (.list .int32) ⟨[0, 0, 0, 1, 0, 0, 0, 4, 0, 0, 0, 7], 0⟩ 3
        = .ok (.list [some (.int32 7)])
    ∧ deserialize (.list (.list .bytes)) ⟨[0, 1, 0, 4, 0, 1, 0, 0], 0⟩ 2
        = .ok (.list [some (.list [some (.bytes [])])])
    ∧ deserialize (.list .int32) ⟨[0, 1, 255, 255], 0⟩ 2
        = .error (.valueError "negative item size in list")
    ∧ deserialize (.list .int32) ⟨[0, 0, 0, 1, 255, 255, 255, 255], 0⟩ 3
        = .error (.valueError "negative item size in list") := by
  refine ⟨?_, ?_, ?_, ?_, rfl, rfl, rfl, rfl, rfl⟩
  · intro pv h
    rw [listSizeSize, if_pos h]
  · intro pv h
    rw [listSizeSize, if_neg (by omega)]
  · intro pv bs h
    rw [unpackListSize, if_pos h]
  · intro pv bs h
    rw [unpackListSize, if_neg (by omega)]

/-- Witness for C4 at concrete protocol versions. -/
theorem list_framing_width_by_version_witness :
    listSizeSize 3 = 4 ∧ listSizeSize 2 = 2
    ∧ unpackListSize 3 [255, 255, 255, 255] = unpackInt32 [255, 255, 255, 255]
    ∧ unpackListSize 2 [255, 255] = unpackInt16 [255, 255] :=
  ⟨list_framing_width_by_version.1 3 (by norm_num),
   list_framing_width_by_version.2.1 2 (by norm_num),
   list_framing_width_by_version.2.2.1 3 [255, 255, 255, 255] (by norm_num),
   list_framing_width_by_version.2.2.2.1 2 [255, 255] (by norm_num)⟩

/-- C5: `CqlTupleType::Deserialize` forces an effective protocol version of at
least 3 — decoding at any version below 3 is identical to decoding at version
3 — so tuple element size fields are always 4 bytes wide and recursive subtype
decodes see the forced version (demonstrated by a nested list inside a tuple
decoded with 4-byte framing although the negotiated version is 1). -/
theorem tuple_forces_protocol_v3 :
    (∀ (ts : List CqlType) (buf : Buffer) (pv : Int), pv < 3 →
        deserialize (.tuple ts) buf pv = deserialize (.tuple ts) buf 3)
    ∧ deserialize (.tuple [.list .bytes]) ⟨[0, 0, 0, 8, 0, 0, 0, 1, 0, 0, 0, 0], 0⟩ 1
        = .ok (.tuple [some (.list [some (.bytes [])])]) := by
  refine ⟨?_, rfl⟩
  intro ts buf pv h
  simp only [deserialize]
  rw [if_pos h, if_neg (by omega : ¬ (3 : Int) < 3)]

/-- Witness for C5 at protocol version 1. -/
theorem tuple_forces_protocol_v3_witness :
    deserialize (.tuple [.int32]) ⟨[0, 0, 0, 4, 0, 0, 0, 7], 0⟩ 1
      = deserialize (.tuple [.int32]) ⟨[0, 0, 0, 4, 0, 0, 0, 7], 0⟩ 3 :=
  tuple_forces_protocol_v3.1 [.int32] ⟨[0, 0, 0, 4, 0, 0, 0, 7], 0⟩ 1 (by norm_num)

/-- C6: `CqlDecimalType::Deserialize` fails with the EOF (Truncated) error when
fewer than 4 bytes remain for the scale field; otherwise it reads a 4-byte
big-endian signed scale `S`, decodes all remaining bytes as a twos-complement
arbitrary-precision unscaled integer `U`, and hands the text `<U>e<-S>` to the
arbitrary-precision decimal constructor; concretely scale 2 with unscaled
12345 yields the text `12345e-2`, and `12345 * 10 ^ (-2) = 123.45`. -/
theorem decimal_deserialize_scale_unscaled :
    (∀ (pv : Int) (buf : Buffer), buf.Residual < 4 →
        deserialize .decimal buf pv
          = .error (.eofError "unexpected end of buffer deserializing decimal number"))
    ∧ (∀ (pv : Int) (buf buf1 : Buffer) (sd : List Nat),
        buf.Consume 4 = some (sd, buf1) →
        deserialize .decimal buf pv
          = .ok (.decimal (toString (unmarshalVarint buf1.residualBytes) ++ "e"
              ++ toString (-(unpackInt32 sd)))))
    ∧ deserialize .decimal ⟨[0, 0, 0, 2, 48, 57], 0⟩ 1 = .ok (.decimal "12345e-2")
    ∧ ((12345 : ℚ) * (10 : ℚ) ^ (-(2 : ℤ)) = 123.45) := by
  refine ⟨?_, ?_, rfl, by norm_num⟩
  · intro pv buf h
    simp only [deserialize]
    rw [consume_none h]
  · intro pv buf buf1 sd hc
    simp only [deserialize]
    rw [hc]

/-- Witness for C6: truncated scale field and the concrete scale 2, unscaled
12345 window. -/
theorem decimal_deserialize_scale_unscaled_witness :
    deserialize .decimal ⟨[0, 0, 2], 0⟩ 1
      = .error (.eofError "unexpected end of buffer deserializing decimal number")
    ∧ deserialize .decimal ⟨[0, 0, 0, 2, 48, 57], 0⟩ 1
      = .ok (.decimal (toString (unmarshalVarint (Buffer.mk [0, 0, 0, 2, 48, 57] 4).residualBytes)
          ++ "e" ++ toString (-(unpackInt32 [0, 0, 0, 2])))) :=
  ⟨decimal_deserialize_scale_unscaled.1 1 ⟨[0, 0, 2], 0⟩ (by decide),
   decimal_deserialize_scale_unscaled.2.1 1 ⟨[0, 0, 0, 2, 48, 57], 0⟩
     ⟨[0, 0, 0, 2, 48, 57], 4⟩ [0, 0, 0, 2] (by decide)⟩

/-- C8: `CqlInetAddressType::Deserialize` fails Malformed (`ValueError`) when
the window is not exactly 4 or 16 octets (before consuming anything); a
4-octet window yields the dotted-decimal IPv4 presentation; a 16-octet window
yields the canonical colon-hex IPv6 presentation; concretely `c0 a8 00 01`
gives `192.168.0.1`, the 16-octet `2001:db8::1` bytes give `2001:db8::1`, and
a 5-octet window fails Malformed. A presentation-conversion failure maps to
the fatal `OSError` path of the code. -/
theorem inet_presentation_by_window_size :
    (∀ (pv : Int) (buf : Buffer), buf.Residual ≠ 4 → buf.Residual ≠ 16 →
        deserialize .inet buf pv
          = .error (.valueError
              "expected buffer to either represent a 4 or 16 octet network address"))
    ∧ (∀ (pv : Int) (buf : Buffer), buf.Residual = 4 →
        deserialize .inet buf pv = .ok (.inetText (inetNtop4 buf.residualBytes)))
    ∧ (∀ (pv : Int) (buf : Buffer), buf.Residual = 16 →
        deserialize .inet buf pv = .ok (.inetText (inetNtop6 buf.residualBytes)))
    ∧ deserialize .inet ⟨[192, 168, 0, 1], 0⟩ 1 = .ok (.inetText "192.168.0.1")
    ∧ deserialize .inet ⟨[32, 1, 13, 184, 0, 0, 0, 0, 0, 0, 0, 0, 0, 0, 0, 1], 0⟩ 1
        = .ok (.inetText "2001:db8::1")
    ∧ deserialize .inet ⟨[1, 2, 3, 4, 5], 0⟩ 1
        = .error (.valueError
            "expected buffer to either represent a 4 or 16 octet network address") := by
  refine ⟨?_, ?_, ?_, rfl, rfl, rfl⟩
  · intro pv buf h4 h16
    simp only [deserialize]
    rw [if_pos ⟨h4, h16⟩]
  · intro pv buf h
    have hl : buf.residualBytes.length = 4 := by rw [residualBytes_length, h]
    simp only [deserialize]
    rw [if_neg (by simp [h]), inetNtop, if_pos hl]
  · intro pv buf h
    have hl : buf.residualBytes.length = 16 := by rw [residualBytes_length, h]
    simp only [deserialize]
    rw [if_neg (by simp [h]), inetNtop, if_neg (by omega), if_pos hl]

/-- Witness for C8: the general branches applied at a 5-octet, a 4-octet and a
16-octet window. -/
theorem inet_presentation_by_window_size_witness :
    deserialize .inet ⟨[9, 9, 9, 9, 9], 0⟩ 2
      = .error (.valueError
          "expected buffer to either represent a 4 or 16 octet network address")
    ∧ deserialize .inet ⟨[10, 0, 0, 255], 0⟩ 2
      = .ok (.inetText (inetNtop4 (Buffer.mk [10, 0, 0, 255] 0).residualBytes))
    ∧ deserialize .inet ⟨List.replicate 16 0, 0⟩ 2
      = .ok (.inetText (inetNtop6 (Buffer.mk (List.replicate 16 0) 0).residualBytes)) :=
  ⟨inet_presentation_by_window_size.1 2 ⟨[9, 9, 9, 9, 9], 0⟩ (by decide) (by decide),
   inet_presentation_by_window_size.2.1 2 ⟨[10, 0, 0, 255], 0⟩ (by decide),
   inet_presentation_by_window_size.2.2.1 2 ⟨List.replicate 16 0, 0⟩ (by decide)⟩

/-- An `unpackInt32` result is never below `-2 ^ 31`. -/
lemma unpackInt32_lower_bound (bs : List Nat) : -(2 ^ 31) ≤ unpackInt32 bs := by
  unfold unpackInt32
  dsimp only
  split <;> omega

/-- C9: for protocol version at least 3, `CqlListType::Deserialize` unpacks the
4-byte count prefix as a signed 32-bit integer and assigns it to a
`std::size_t`: a negative declared count is not rejected as Malformed but is
reinterpreted modulo `2 ^ 64` as an enormous unsigned item count (at least
`2 ^ 63`) that sizes the result sequence and bounds the decode loop — here the
loop stops at once because no size field can be read, and the declared-length
result is returned successfully. -/
theorem list_negative_count_reinterpreted :
    ∀ (t : CqlType) (pv : Int) (buf buf1 : Buffer) (cnt : List Nat),
      3 ≤ pv → buf.Consume 4 = some (cnt, buf1) → unpackInt32 cnt < 0 →
      buf1.Residual < 4 →
      deserialize (.list t) buf pv
          = .ok (.list (List.replicate (toSizeT (unpackInt32 cnt)) Option.none))
        ∧ 2 ^ 63 ≤ toSizeT (unpackInt32 cnt) := by
  intro t pv buf buf1 cnt h3 hc hneg hres
  have hss : listSizeSize pv = 4 := by rw [listSizeSize, if_pos h3]
  have hup : unpackListSize pv cnt = unpackInt32 cnt := by rw [unpackListSize, if_pos h3]
  constructor
  · simp only [deserialize]
    rw [hss, hc]
    dsimp only
    rw [hup, listLoopF_exhausted _ _ _ _ _ _ _ (by omega)]
  · have hlow := unpackInt32_lower_bound cnt
    unfold toSizeT
    omega

/-- Witness for C9: count field `ff ff ff ff` (signed -1) at protocol
version 3 with an empty remainder. -/
theorem list_negative_count_reinterpreted_witness :
    deserialize (.list .int32) ⟨[255, 255, 255, 255], 0⟩ 3
        = .ok (.list (List.replicate (toSizeT (unpackInt32 [255, 255, 255, 255])) Option.none))
      ∧ 2 ^ 63 ≤ toSizeT (unpackInt32 [255, 255, 255, 255]) :=
  list_negative_count_reinterpreted .int32 3 ⟨[255, 255, 255, 255], 0⟩
    ⟨[255, 255, 255, 255], 4⟩ [255, 255, 255, 255] (by norm_num) rfl (by decide) (by decide)

/-! Lemmas on the allocation model. -/

lemma newIds_length : ∀ (n k : Nat), (newIds n k).length = k := by
  intro n k
  induction k generalizing n with
  | zero => rfl
  | succ k ih => simp [newIds, ih]

lemma mem_newIds : ∀ {x n k : Nat}, x ∈ newIds n k ↔ n ≤ x ∧ x < n + k := by
  intro x n k
  induction k generalizing n with
  | zero =>
    simp [newIds]
  | succ k ih =>
    simp [newIds, List.mem_cons, ih]
    omega

lemma newIds_nodup : ∀ (n k : Nat), (newIds n k).Nodup := by
  intro n k
  induction k generalizing n with
  | zero => simp [newIds]
  | succ k ih =>
    rw [newIds, List.nodup_cons]
    refine ⟨?_, ih (n + 1)⟩
    rw [mem_newIds]
    omega

lemma resolveLoop_all_resolvable :
    ∀ (k : Nat) (acc : List Nat) (st : AllocState),
      resolveLoop (List.replicate k .resolvable) acc st
        = (.ok (acc ++ newIds st.nextId k),
           ⟨st.nextId + k, (newIds st.nextId k).reverse ++ st.live⟩) := by
  intro k
  induction k with
  | zero =>
    intro acc st
    simp [resolveLoop, newIds]
  | succ k ih =>
    intro acc st
    rw [List.replicate_succ]
    simp only [resolveLoop, referenceFromPython]
    rw [ih]
    simp only [newIds, List.reverse_cons, List.append_assoc, List.singleton_append,
      List.cons_append, List.nil_append, Prod.mk.injEq, Except.ok.injEq, AllocState.mk.injEq]
    exact ⟨trivial, by omega, trivial⟩

lemma resolveLoop_fails_after :
    ∀ (k : Nat) (post : List SubtypeDesc) (e : Failure) (acc : List Nat) (st : AllocState),
      resolveLoop (List.replicate k .resolvable ++ .failing e :: post) acc st
        = (.error e,
           (acc ++ newIds st.nextId k).foldl freeRef
             ⟨st.nextId + k, (newIds st.nextId k).reverse ++ st.live⟩) := by
  intro k
  induction k with
  | zero =>
    intro post e acc st
    simp [resolveLoop, referenceFromPython, newIds]
  | succ k ih =>
    intro post e acc st
    rw [List.replicate_succ, List.cons_append]
    simp only [resolveLoop, referenceFromPython]
    rw [ih]
    simp only [newIds, List.reverse_cons, List.append_assoc, List.singleton_append,
      List.cons_append, List.nil_append, Prod.mk.injEq]
    refine ⟨trivial, ?_⟩
    congr 1
    simp only [AllocState.mk.injEq]
    exact ⟨by omega, trivial⟩

lemma foldl_freeRef_clear :
    ∀ (ids : List Nat) (m : Nat) (rest : List Nat),
      ids.Nodup → (∀ x ∈ rest, x ∉ ids) →
      ids.foldl freeRef ⟨m, ids.reverse ++ rest⟩ = ⟨m, rest⟩ := by
  intro ids
  induction ids with
  | nil =>
    intro m rest _ _
    rfl
  | cons id tl ih =>
    intro m rest hnd hrest
    rw [List.reverse_cons, List.foldl_cons]
    have hid_tl : id ∉ tl := (List.nodup_cons.mp hnd).1
    have h1 : freeRef ⟨m, (tl.reverse ++ [id]) ++ rest⟩ id = ⟨m, tl.reverse ++ rest⟩ := by
      unfold freeRef
      simp only [AllocState.mk.injEq, true_and]
      rw [List.filter_append, List.filter_append]
      rw [List.filter_eq_self.mpr (by
        intro x hx
        simp only [decide_eq_true_eq, ne_eq]
        intro hxx
        exact hid_tl (by simpa [hxx] using List.mem_reverse.mp hx))]
      rw [show List.filter (fun x => decide (x ≠ id)) [id] = [] by simp]
      rw [List.filter_eq_self.mpr (by
        intro x hx
        simp only [decide_eq_true_eq, ne_eq]
        intro hxx
        exact hrest x hx (hxx ▸ List.mem_cons_self id tl))]
      simp
    rw [h1]
    exact ih m rest (List.nodup_cons.mp hnd).2
      (fun x hx hmem => hrest x hx (List.mem_cons_of_mem _ hmem))

/-- C7: when the i-th subtype of an ordered (list-like or tuple-like) subtypes
attribute fails to resolve, `ResolveSubtypes` deletes every previously
resolved subtype reference — the final live-allocation set equals the initial
one, so k prior allocations are all released — and propagates the original
failure; no composite type is constructed from the partial result. -/
theorem resolve_subtypes_releases_on_failure :
    ∀ (k : Nat) (post : List SubtypeDesc) (e : Failure) (st : AllocState),
      (∀ x ∈ st.live, x < st.nextId) →
      resolveSubtypes (.listLike (List.replicate k .resolvable ++ .failing e :: post)) st
          = (.error e, ⟨st.nextId + k, st.live⟩)
        ∧ resolveSubtypes (.tupleLike (List.replicate k .resolvable ++ .failing e :: post)) st
          = (.error e, ⟨st.nextId + k, st.live⟩) := by
  intro k post e st hwf
  have key : resolveLoop (List.replicate k .resolvable ++ .failing e :: post) [] st
      = (.error e, ⟨st.nextId + k, st.live⟩) := by
    rw [resolveLoop_fails_after]
    rw [List.nil_append]
    congr 1
    exact foldl_freeRef_clear (newIds st.nextId k) (st.nextId + k) st.live
      (newIds_nodup _ _)
      (fun x hx hmem => by
        have h1 := mem_newIds.mp hmem
        have h2 := hwf x hx
        omega)
  exact ⟨key, key⟩

/-- Witness for C7: the third of four subtypes fails; the two references
allocated for the first two subtypes are released and the original failure is
propagated. -/
theorem resolve_subtypes_releases_on_failure_witness :
    resolveSubtypes
        (.listLike (List.replicate 2 .resolvable
          ++ .failing (.valueError "boom") :: [.resolvable])) ⟨0, []⟩
      = (.error (.valueError "boom"), ⟨2, []⟩) :=
  (resolve_subtypes_releases_on_failure 2 [.resolvable] (.valueError "boom") ⟨0, []⟩
    (by simp)).1

/-- C10: when the subtypes of a list descriptor all resolve but their number
is not exactly one, `CqlListType::FromPython` fails with the `TypeError`
(Malformed) condition and releases none of the k just-resolved subtype
references: they all stay in the live-allocation set, which grows by k. -/
theorem list_from_python_arity_error_leaks :
    ∀ (k : Nat) (st : AllocState), k ≠ 1 →
      cqlListTypeFromPython (.listLike (List.replicate k .resolvable)) st
          = (.error (.typeError "list does not have one subtype"),
             ⟨st.nextId + k, (newIds st.nextId k).reverse ++ st.live⟩)
        ∧ ((newIds st.nextId k).reverse ++ st.live).length = st.live.length + k := by
  intro k st hk
  constructor
  · have hres : resolveSubtypes (.listLike (List.replicate k .resolvable)) st
        = (.ok (newIds st.nextId k), ⟨st.nextId + k, (newIds st.nextId k).reverse ++ st.live⟩) := by
      simp only [resolveSubtypes]
      rw [resolveLoop_all_resolvable]
      rw [List.nil_append]
    match k, hk with
    | 0, _ =>
      simp only [cqlListTypeFromPython]
      rw [hres]
      simp only [newIds]
    | k + 2, _ =>
      simp only [cqlListTypeFromPython]
      rw [hres]
      simp only [newIds]
  · simp only [List.length_append, List.length_reverse, newIds_length]
    omega

/-- Witness for C10: two resolvable subtypes on a list descriptor; both
allocations leak. -/
theorem list_from_python_arity_error_leaks_witness :
    cqlListTypeFromPython (.listLike (List.replicate 2 .resolvable)) ⟨0, []⟩
        = (.error (.typeError "list does not have one subtype"),
           ⟨0 + 2, (newIds 0 2).reverse ++ []⟩)
      ∧ ((newIds 0 2).reverse ++ ([] : List Nat)).length = ([] : List Nat).length + 2 :=
  list_from_python_arity_error_leaks 2 ⟨0, []⟩ (by omega)

end Pyccassandra
